import Mathlib

/-!
Verification development for the author-byline scripts of the
backend-engineering-notes repository.

The executable core of the repository is a browser script shipped in two
near-duplicate variants:

- docs/js/author-avatar.js (relative mode): on DOMContentLoaded it runs
  document.querySelector with the selector list consisting of
  article-scoped h1 and article-scoped h2, and, when a heading is found,
  creates a div, sets its style and innerHTML (an img with the relative
  source images/labeeb.jpg and a span reading By labeeb), and inserts the
  div with insertAdjacentElement afterend, i.e. as the immediate next
  sibling of the heading.
- the variant embedded in README.md (origin-qualified mode): identical
  control flow, except that the img source is
  window.location.origin ++ "/backend-engineering-notes/images/labeeb.jpg"
  and the span reads By Labeeb.

The DOM is modelled as a tree of element and text nodes; in this shallow
embedding node identity becomes structural equality, so facts that in a
browser hold by node identity (the byline is the one node the script
created) are expressed by counting structural copies of the byline div and
assuming, where the spec implicitly does, that the page did not already
contain such a copy.
-/

/-- DOM node: an element with a tag name, an attribute list and a list of
child nodes, or a text node. Inline style assignments of the script are
modelled as the style attribute. -/
inductive Node where
  | text (s : String)
  | elem (tag : String) (attrs : List (String × String)) (children : List Node)

mutual

/-- Boolean structural equality on nodes. -/
def Node.beq : Node → Node → Bool
  | .text s, .text s2 => s == s2
  | .elem t a c, .elem t2 a2 c2 => t == t2 && a == a2 && Node.beqL c c2
  | _, _ => false

/-- Boolean structural equality on node lists. -/
def Node.beqL : List Node → List Node → Bool
  | [], [] => true
  | n :: r, n2 :: r2 => Node.beq n n2 && Node.beqL r r2
  | _, _ => false

end

mutual

theorem Node.beq_iff : (a b : Node) → (Node.beq a b = true ↔ a = b)
  | .text s, .text s2 => by simp [Node.beq]
  | .elem t a c, .elem t2 a2 c2 => by
    simp [Node.beq, Node.beqL_iff c c2, and_assoc]
  | .text _, .elem _ _ _ => by simp [Node.beq]
  | .elem _ _ _, .text _ => by simp [Node.beq]

theorem Node.beqL_iff : (l l2 : List Node) → (Node.beqL l l2 = true ↔ l = l2)
  | [], [] => by simp [Node.beqL]
  | n :: r, n2 :: r2 => by simp [Node.beqL, Node.beq_iff n n2, Node.beqL_iff r r2]
  | [], _ :: _ => by simp [Node.beqL]
  | _ :: _, [] => by simp [Node.beqL]

end

instance : DecidableEq Node := fun a b => decidable_of_iff (Node.beq a b = true) (Node.beq_iff a b)

/-- Whether a node is matched by the selector list "article h1, article h2":
an h1 or h2 element that has an article ancestor. The flag inA records
whether an article ancestor is in scope at this point of the traversal. -/
def isMatch (inA : Bool) : Node → Bool
  | .text _ => false
  | .elem t _ _ => inA && (t == "h1" || t == "h2")

mutual

/-- Search the strict descendants of a node for the first element, in
document order, matched by the selector "article h1, article h2". -/
def findN (inA : Bool) : Node → Option Node
  | .text _ => none
  | .elem t _ c => findL (inA || t == "article") c

/-- Search a sibling list (each node, then its subtree) for the first
selector match in document order. -/
def findL (inA : Bool) : List Node → Option Node
  | [] => none
  | n :: r =>
    if isMatch inA n then some n
    else
      match findN inA n with
      | some h => some h
      | none => findL inA r

end

/-- document.querySelector with the source selector "article h1, article h2",
line 2 of docs/js/author-avatar.js and line 19 of the README variant. The
document root itself can never match (it has no article ancestor), so the
search over its descendants is the whole-document search. -/
def querySelectorHeading (doc : Node) : Option Node :=
  findN false doc

/-- README variant, line 22: image_url is window.location.origin concatenated
with the fixed string "/backend-engineering-notes/images/labeeb.jpg". -/
def image_url (origin : String) : String :=
  origin ++ "/backend-engineering-notes/images/labeeb.jpg"

/-- The avatar div built by docs/js/author-avatar.js lines 4 to 9: a styled
div whose innerHTML parses to a whitespace text node, an img with the
relative source images/labeeb.jpg, a whitespace text node, a span reading
By labeeb, and a trailing whitespace text node. -/
def avatarDivRel : Node :=
  .elem "div" [("style", "display:flex;align-items:center;gap:10px;margin:6px 0 20px 0;")]
    [.text "\n      ",
     .elem "img" [("src", "images/labeeb.jpg"), ("width", "32"), ("height", "32"),
       ("style", "border-radius:50%;")] [],
     .text "\n      ",
     .elem "span" [("style", "font-size:14px;opacity:0.8;")] [.text "By labeeb"],
     .text "\n    "]

/-- The avatar div built by the README variant, lines 21 to 27: identical
shape, but the img source is image_url origin and the span reads By Labeeb. -/
def avatarDivOrigin (origin : String) : Node :=
  .elem "div" [("style", "display:flex;align-items:center;gap:10px;margin:6px 0 20px 0;")]
    [.text "\n      ",
     .elem "img" [("src", image_url origin), ("width", "32"), ("height", "32"),
       ("style", "border-radius:50%;")] [],
     .text "\n      ",
     .elem "span" [("style", "font-size:14px;opacity:0.8;")] [.text "By Labeeb"],
     .text "\n    "]

/-- Avatar div parameterised by image source and label text: the shape the
two variants share, used to state in what the variants differ. -/
def mkAvatarDiv (src label : String) : Node :=
  .elem "div" [("style", "display:flex;align-items:center;gap:10px;margin:6px 0 20px 0;")]
    [.text "\n      ",
     .elem "img" [("src", src), ("width", "32"), ("height", "32"),
       ("style", "border-radius:50%;")] [],
     .text "\n      ",
     .elem "span" [("style", "font-size:14px;opacity:0.8;")] [.text label],
     .text "\n    "]

mutual

/-- Insert av after the first selector match strictly inside a node,
rebuilding the node; the Bool reports whether an insertion happened. When no
match exists in the subtree the node is returned unchanged, mirroring that
the script touches nothing when querySelector returns null. -/
def insN (av : Node) (inA : Bool) : Node → Node × Bool
  | .text s => (.text s, false)
  | .elem t a c =>
    match insL av (inA || t == "article") c with
    | (c2, true) => (.elem t a c2, true)
    | (_, false) => (.elem t a c, false)

/-- Insert av as the immediate next sibling of the first selector match in a
sibling list, traversing in document order exactly as findL does; this is
insertAdjacentElement with the afterend position applied to the
querySelector result. -/
def insL (av : Node) (inA : Bool) : List Node → List Node × Bool
  | [] => ([], false)
  | n :: r =>
    if isMatch inA n then (n :: av :: r, true)
    else
      match insN av inA n with
      | (n2, true) => (n2 :: r, true)
      | (_, false) =>
        match insL av inA r with
        | (r2, d) => (n :: r2, d)

end

/-- One run of the DOMContentLoaded handler body with avatar div av: locate
the first match of "article h1, article h2" and, if found, insert av as its
immediate next sibling; otherwise leave the document unchanged. -/
def runHandler (av : Node) (doc : Node) : Node :=
  (insN av false doc).1

/-- The handler of docs/js/author-avatar.js (relative mode). -/
def runRel (doc : Node) : Node :=
  runHandler avatarDivRel doc

/-- The handler of the README variant (origin-qualified mode). -/
def runOrigin (origin : String) (doc : Node) : Node :=
  runHandler (avatarDivOrigin origin) doc

mutual

/-- Number of elements in a node (itself included) matched by the selector
"article h1, article h2", under article-scope flag inA. -/
def countQN (inA : Bool) : Node → Nat
  | .text _ => 0
  | .elem t _ c => (if inA && (t == "h1" || t == "h2") then 1 else 0) + countQL (inA || t == "article") c

/-- Number of selector matches in a sibling list. -/
def countQL (inA : Bool) : List Node → Nat
  | [] => 0
  | n :: r => countQN inA n + countQL inA r

end

mutual

/-- Number of structural copies of av in a node tree; this plays the role of
node identity for the byline div. -/
def countN (av : Node) : Node → Nat
  | .text s => (if Node.text s = av then 1 else 0)
  | .elem t a c => (if Node.elem t a c = av then 1 else 0) + countL av c

/-- Number of structural copies of av in a sibling list. -/
def countL (av : Node) : List Node → Nat
  | [] => 0
  | n :: r => countN av n + countL av r

end

/-- Shallow label of a node: its constructor data without the children, used
to state document-order preservation. -/
inductive NodeL where
  | elemL (tag : String) (attrs : List (String × String))
  | textL (s : String)
deriving DecidableEq

mutual

/-- Preorder (document-order) list of node labels of a tree. -/
def pre1 : Node → List NodeL
  | .text s => [.textL s]
  | .elem t a c => .elemL t a :: preL c

/-- Preorder label list of a sibling list. -/
def preL : List Node → List NodeL
  | [] => []
  | n :: r => pre1 n ++ preL r

end

mutual

/-- Whether somewhere in the tree a copy of x has a copy of y as its
immediate next sibling. -/
def hasPairN (x y : Node) : Node → Bool
  | .text _ => false
  | .elem _ _ c => hasPairL x y c

/-- Whether in a sibling list (or any nested sibling list) a copy of x is
immediately followed by a copy of y. -/
def hasPairL (x y : Node) : List Node → Bool
  | [] => false
  | [n] => hasPairN x y n
  | n :: m :: r => (decide (n = x) && decide (m = y)) || hasPairN x y n || hasPairL x y (m :: r)

end

mutual

/-- All selector matches strictly inside a node, in document order: the
querySelectorAll companion of findN, stated from the words of the spec to
compare against the single-lookup findN. -/
def matchesN (inA : Bool) : Node → List Node
  | .text _ => []
  | .elem t _ c => matchesL (inA || t == "article") c

/-- All selector matches of a sibling list in document order. -/
def matchesL (inA : Bool) : List Node → List Node
  | [] => []
  | n :: r => (if isMatch inA n then [n] else []) ++ matchesN inA n ++ matchesL inA r

end

mutual

/-- The src attribute of the first img element of a tree, in document
order. -/
def firstImgSrcN : Node → Option String
  | .text _ => none
  | .elem t a c => if t == "img" then a.lookup "src" else firstImgSrcL c

/-- The src attribute of the first img element of a sibling list. -/
def firstImgSrcL : List Node → Option String
  | [] => none
  | n :: r =>
    match firstImgSrcN n with
    | some s => some s
    | none => firstImgSrcL r

end

mutual

/-- The text of the first span element of a tree that has a single text
child, in document order: the byline label. -/
def firstSpanTextN : Node → Option String
  | .text _ => none
  | .elem t _ c =>
    if t == "span" then
      match c with
      | [.text s] => some s
      | _ => none
    else firstSpanTextL c

/-- The text of the first single-text span of a sibling list. -/
def firstSpanTextL : List Node → Option String
  | [] => none
  | n :: r =>
    match firstSpanTextN n with
    | some s => some s
    | none => firstSpanTextL r

end

/-- The fixed relative image path written literally in line 7 of
docs/js/author-avatar.js. -/
def relImagePath : String := "images/labeeb.jpg"

/-- The site base path component of the origin-qualified image URL. -/
def siteBasePath : String := "/backend-engineering-notes/"

/-- The image sub-path component of the origin-qualified image URL. -/
def imageSubPath : String := "images/labeeb.jpg"

/-- Whether a string ends in a slash character. -/
def endsSlash (s : String) : Bool :=
  s.data.getLast? == some '/'

/-- Whether a string starts with a slash character. -/
def startsSlash (s : String) : Bool :=
  s.data.head? == some '/'

/-- Whether a string starts with two slash characters. -/
def startsDoubleSlash (s : String) : Bool :=
  match s.data with
  | '/' :: '/' :: _ => true
  | _ => false

/-- Whether a string ends with two slash characters. -/
def endsDoubleSlash (s : String) : Bool :=
  match s.data.reverse with
  | '/' :: '/' :: _ => true
  | _ => false

/-- Exactly one slash sits at the junction of a followed by b: the slash
comes from exactly one side, and that side contributes exactly one. -/
def oneSlashSeam (a b : String) : Bool :=
  (endsSlash a && !startsSlash b && !endsDoubleSlash a) ||
  (!endsSlash a && startsSlash b && !startsDoubleSlash b)

/-- The DOM operations the handler body invokes, made explicitly fallible to
model an environment in which element construction or insertion can fail.
createAvatar models the createElement, style and innerHTML steps;
insertAvatarAfter models insertAdjacentElement with the afterend position. -/
structure DomApi where
  createAvatar : Except String Node
  insertAvatarAfter : Node → Node → Node → Except String Node

/-- The handler body over the fallible DOM operations, translated step by
step from docs/js/author-avatar.js lines 1 to 12: the source contains no
try or catch, so the failure of any step propagates to the caller. -/
def handlerE (api : DomApi) (doc : Node) : Except String Node :=
  match querySelectorHeading doc with
  | none => Except.ok doc
  | some h =>
    match api.createAvatar with
    | Except.error e => Except.error e
    | Except.ok av => api.insertAvatarAfter doc h av

/-- An environment in which element construction fails. -/
def failingApi : DomApi where
  createAvatar := Except.error "createElement unavailable"
  insertAvatarAfter := fun _ _ _ => Except.error "insertAdjacentElement unavailable"

/-- An environment in which construction succeeds but insertion fails. -/
def failingInsertApi : DomApi where
  createAvatar := Except.ok avatarDivRel
  insertAvatarAfter := fun _ _ _ => Except.error "insertAdjacentElement unavailable"

/-- Scenario page of the spec: article with one h1 and one paragraph. -/
def scenarioDoc : Node :=
  .elem "article" [] [.elem "h1" [] [.text "Title"], .elem "p" [] [.text "Body"]]

/-- The heading of scenarioDoc. -/
def scenarioH1 : Node :=
  .elem "h1" [] [.text "Title"]

/-- Scenario page of the spec with no heading. -/
def noHeadingDoc : Node :=
  .elem "article" [] [.elem "p" [] [.text "No heading here"]]

/-- A page on which an h2 precedes an h1 inside the article. -/
def h2BeforeH1Doc : Node :=
  .elem "body" [] [.elem "article" [] [.elem "h2" [] [.text "Sub"], .elem "h1" [] [.text "Main"]]]

/-- A page with two qualifying headings inside the article. -/
def twoHeadingsDoc : Node :=
  .elem "body" [] [.elem "article" [] [.elem "h1" [] [.text "First"], .elem "h2" [] [.text "Second"]]]



theorem isMatch_false (n : Node) : isMatch false n = false := by
  cases n <;> simp [isMatch]

theorem insN_id (av : Node) (inA : Bool) (n : Node) (h : (insN av inA n).2 = false) :
    (insN av inA n).1 = n := by
  cases n with
  | text s => rfl
  | elem t a c =>
    rcases hi : insL av (inA || t == "article") c with ⟨c2, d⟩
    cases d
    · simp [insN, hi]
    · rw [insN, hi] at h
      simp at h

mutual

theorem insN_flag (av : Node) : (inA : Bool) → (n : Node) → (insN av inA n).2 = (findN inA n).isSome
  | inA, .text s => by simp [insN, findN]
  | inA, .elem t a c => by
    have ih := insL_flag av (inA || t == "article") c
    rcases hi : insL av (inA || t == "article") c with ⟨c2, d⟩
    rw [hi] at ih
    cases d <;> simp [insN, hi, findN, ← ih]

theorem insL_flag (av : Node) : (inA : Bool) → (l : List Node) → (insL av inA l).2 = (findL inA l).isSome
  | inA, [] => by simp [insL, findL]
  | inA, n :: r => by
    by_cases hm : isMatch inA n
    · simp [insL, findL, hm]
    · have ihn := insN_flag av inA n
      have ihr := insL_flag av inA r
      rcases hn : insN av inA n with ⟨n2, d⟩
      rw [hn] at ihn
      cases d
      · rcases hr : insL av inA r with ⟨r2, d2⟩
        rw [hr] at ihr
        have hfn : findN inA n = none := by
          cases hf : findN inA n
          · rfl
          · rw [hf] at ihn; simp at ihn
        simp [insL, findL, hm, hn, hr, hfn, ihr]
      · have hfs : (findN inA n).isSome = true := by rw [← ihn]
        rcases hf : findN inA n with _ | h
        · rw [hf] at hfs; simp at hfs
        · simp [insL, findL, hm, hn, hf]

end

theorem isMatch_countQ {inA : Bool} {n : Node} (h : isMatch inA n = true) : 0 < countQN inA n := by
  cases n with
  | text s => simp [isMatch] at h
  | elem t a c =>
    rw [isMatch] at h
    simp [countQN, h]

mutual

theorem findN_countQ : (inA : Bool) → (n : Node) →
    ((isMatch inA n || (findN inA n).isSome) = true ↔ 0 < countQN inA n)
  | inA, .text s => by simp [isMatch, findN, countQN]
  | inA, .elem t a c => by
    have ih := findL_countQ (inA || t == "article") c
    rw [isMatch, findN, countQN]
    by_cases hc : inA && (t == "h1" || t == "h2")
    · simp [hc, Nat.add_comm]
    · simp [hc, ih]

theorem findL_countQ : (inA : Bool) → (l : List Node) →
    ((findL inA l).isSome = true ↔ 0 < countQL inA l)
  | inA, [] => by simp [findL, countQL]
  | inA, n :: r => by
    have ihn := findN_countQ inA n
    have ihr := findL_countQ inA r
    by_cases hm : isMatch inA n
    · have := isMatch_countQ hm
      simp [findL, countQL, hm]
      omega
    · rw [findL, if_neg hm]
      rw [Bool.not_eq_true] at hm
      rw [hm] at ihn
      simp only [Bool.false_or] at ihn
      cases hf : findN inA n with
      | some h =>
        rw [hf] at ihn
        simp only [Option.isSome_some, true_iff] at ihn
        simp [countQL]
        omega
      | none =>
        rw [hf] at ihn
        have hz : countQN inA n = 0 := by
          rcases Nat.eq_zero_or_pos (countQN inA n) with h0 | h0
          · exact h0
          · exact absurd (ihn.mpr h0) (by simp)
        simp [countQL, hz, ihr]

end

theorem querySelectorHeading_isSome (doc : Node) :
    (querySelectorHeading doc).isSome = true ↔ 0 < countQN false doc := by
  have h := findN_countQ false doc
  rw [isMatch_false, Bool.false_or] at h
  exact h

theorem run_eq_of_none {doc : Node} (av : Node) (h : querySelectorHeading doc = none) :
    runHandler av doc = doc := by
  apply insN_id
  rw [insN_flag av false doc]
  rw [querySelectorHeading] at h
  rw [h]
  rfl

theorem hasPairL_head {x y n : Node} {r : List Node} (h : hasPairN x y n = true) :
    hasPairL x y (n :: r) = true := by
  cases r <;> simp [hasPairL, h]

theorem hasPairL_tail {x y n : Node} {r : List Node} (h : hasPairL x y r = true) :
    hasPairL x y (n :: r) = true := by
  cases r with
  | nil => simp [hasPairL] at h
  | cons m r2 => simp [hasPairL, h]

mutual

theorem insN_decomp : (inA : Bool) → (n : Node) → (h : Node) → findN inA n = some h →
    ∃ l1 l2, pre1 n = l1 ++ l2 ∧
      ∀ av : Node, pre1 (insN av inA n).1 = l1 ++ pre1 av ++ l2 ∧
        hasPairN h av (insN av inA n).1 = true
  | inA, .text s, h => by
    intro hf
    simp [findN] at hf
  | inA, .elem t a c, h => by
    intro hf
    rw [findN] at hf
    obtain ⟨l1, l2, hc, hav⟩ := insL_decomp (inA || t == "article") c h hf
    refine ⟨.elemL t a :: l1, l2, by simp [pre1, hc], ?_⟩
    intro av
    have hflag : (insL av (inA || t == "article") c).2 = true := by
      rw [insL_flag, hf]
      rfl
    rcases hi : insL av (inA || t == "article") c with ⟨c2, d⟩
    rw [hi] at hflag
    subst hflag
    obtain ⟨hpre, hpair⟩ := hav av
    rw [hi] at hpre hpair
    have hins : insN av inA (.elem t a c) = (.elem t a c2, true) := by
      rw [insN, hi]
    rw [hins]
    constructor
    · simp [pre1, hpre]
    · simpa [hasPairN] using hpair

theorem insL_decomp : (inA : Bool) → (l : List Node) → (h : Node) → findL inA l = some h →
    ∃ l1 l2, preL l = l1 ++ l2 ∧
      ∀ av : Node, preL (insL av inA l).1 = l1 ++ pre1 av ++ l2 ∧
        hasPairL h av (insL av inA l).1 = true
  | inA, [], h => by
    intro hf
    simp [findL] at hf
  | inA, n :: r, h => by
    intro hf
    by_cases hm : isMatch inA n
    · rw [findL, if_pos hm] at hf
      injection hf with hnh
      refine ⟨pre1 n, preL r, by simp [preL], ?_⟩
      intro av
      have hins : insL av inA (n :: r) = (n :: av :: r, true) := by
        rw [insL, if_pos hm]
      rw [hins]
      subst hnh
      constructor
      · simp [preL]
      · simp [hasPairL]
    · rw [findL, if_neg hm] at hf
      cases hfn : findN inA n with
      | some h2 =>
        rw [hfn] at hf
        injection hf with hh
        subst hh
        obtain ⟨l1, l2, hp, hav⟩ := insN_decomp inA n h2 hfn
        refine ⟨l1, l2 ++ preL r, by simp [preL, hp], ?_⟩
        intro av
        have hflag : (insN av inA n).2 = true := by
          rw [insN_flag, hfn]
          rfl
        rcases hi : insN av inA n with ⟨n2, d⟩
        rw [hi] at hflag
        subst hflag
        obtain ⟨hpre, hpair⟩ := hav av
        rw [hi] at hpre hpair
        have hins : insL av inA (n :: r) = (n2 :: r, true) := by
          rw [insL, if_neg hm, hi]
        rw [hins]
        constructor
        · simp [preL, hpre]
        · exact hasPairL_head hpair
      | none =>
        rw [hfn] at hf
        obtain ⟨l1, l2, hp, hav⟩ := insL_decomp inA r h hf
        refine ⟨pre1 n ++ l1, l2, by simp [preL, hp], ?_⟩
        intro av
        have hflag : (insN av inA n).2 = false := by
          rw [insN_flag, hfn]
          rfl
        rcases hi : insN av inA n with ⟨n2, d⟩
        rw [hi] at hflag
        subst hflag
        obtain ⟨hpre, hpair⟩ := hav av
        rcases hr : insL av inA r with ⟨r2, d2⟩
        rw [hr] at hpre hpair
        have hins : insL av inA (n :: r) = (n :: r2, d2) := by
          rw [insL, if_neg hm, hi, hr]
        rw [hins]
        constructor
        · simp [preL, hpre]
        · exact hasPairL_tail hpair

end

mutual

theorem insN_countQ (av : Node) (hq : ∀ b2 : Bool, countQN b2 av = 0) :
    (b : Bool) → (inA : Bool) → (n : Node) → countQN b (insN av inA n).1 = countQN b n
  | b, inA, .text s => by simp [insN]
  | b, inA, .elem t a c => by
    rcases hi : insL av (inA || t == "article") c with ⟨c2, d⟩
    cases d
    · simp [insN, hi]
    · have ih := insL_countQ av hq (b || t == "article") (inA || t == "article") c
      rw [hi] at ih
      have hins : insN av inA (.elem t a c) = (.elem t a c2, true) := by
        rw [insN, hi]
      rw [hins]
      simp [countQN, ih]

theorem insL_countQ (av : Node) (hq : ∀ b2 : Bool, countQN b2 av = 0) :
    (b : Bool) → (inA : Bool) → (l : List Node) → countQL b (insL av inA l).1 = countQL b l
  | b, inA, [] => by simp [insL]
  | b, inA, n :: r => by
    by_cases hm : isMatch inA n
    · have hins : insL av inA (n :: r) = (n :: av :: r, true) := by
        rw [insL, if_pos hm]
      rw [hins]
      simp [countQL, hq b]
    · rcases hn : insN av inA n with ⟨n2, d⟩
      cases d
      · rcases hr : insL av inA r with ⟨r2, d2⟩
        have hins : insL av inA (n :: r) = (n :: r2, d2) := by
          rw [insL, if_neg hm, hn, hr]
        have ih := insL_countQ av hq b inA r
        rw [hr] at ih
        rw [hins]
        simp [countQL, ih]
      · have hins : insL av inA (n :: r) = (n2 :: r, true) := by
          rw [insL, if_neg hm, hn]
        have ih := insN_countQ av hq b inA n
        rw [hn] at ih
        rw [hins]
        simp [countQL, ih]

end

mutual

theorem insN_count (av : Node) (hq : ∀ b2 : Bool, countQN b2 av = 0) (hav : countN av av = 1) :
    (inA : Bool) → (n : Node) →
    countN av (insN av inA n).1 = countN av n + (if (insN av inA n).2 then 1 else 0)
  | inA, .text s => by simp [insN]
  | inA, .elem t a c => by
    rcases hi : insL av (inA || t == "article") c with ⟨c2, d⟩
    cases d
    · simp [insN, hi]
    · have ih := insL_count av hq hav (inA || t == "article") c
      rw [hi] at ih
      simp only [if_pos] at ih
      have hins : insN av inA (.elem t a c) = (.elem t a c2, true) := by
        rw [insN, hi]
      rw [hins]
      have hne2 : Node.elem t a c2 ≠ av := by
        intro he
        have h1 : countN av av = countN av (Node.elem t a c2) := by rw [he]
        rw [hav, countN, if_pos he, ih] at h1
        omega
      have hne1 : Node.elem t a c ≠ av := by
        intro he
        have hflag : (insL av (inA || t == "article") c).2 = true := by rw [hi]
        rw [insL_flag] at hflag
        have hpos := (findL_countQ (inA || t == "article") c).mp hflag
        have h0 := hq (inA || t == "article")
        rw [← he, countQN] at h0
        have hb : ((inA || t == "article") || t == "article") = (inA || t == "article") := by
          cases inA <;> cases ht : t == "article" <;> simp
        rw [hb] at h0
        omega
      rw [countN, if_neg hne2, countN, if_neg hne1, ih]
      simp

theorem insL_count (av : Node) (hq : ∀ b2 : Bool, countQN b2 av = 0) (hav : countN av av = 1) :
    (inA : Bool) → (l : List Node) →
    countL av (insL av inA l).1 = countL av l + (if (insL av inA l).2 then 1 else 0)
  | inA, [] => by simp [insL]
  | inA, n :: r => by
    by_cases hm : isMatch inA n
    · have hins : insL av inA (n :: r) = (n :: av :: r, true) := by
        rw [insL, if_pos hm]
      rw [hins]
      simp [countL, hav]
      omega
    · rcases hn : insN av inA n with ⟨n2, d⟩
      cases d
      · rcases hr : insL av inA r with ⟨r2, d2⟩
        have hins : insL av inA (n :: r) = (n :: r2, d2) := by
          rw [insL, if_neg hm, hn, hr]
        have ih := insL_count av hq hav inA r
        rw [hr] at ih
        rw [hins]
        cases d2
        · simp at ih
          simp [countL, ih]
        · simp at ih
          simp [countL, ih]
          omega
      · have hins : insL av inA (n :: r) = (n2 :: r, true) := by
          rw [insL, if_neg hm, hn]
        have ih := insN_count av hq hav inA n
        rw [hn] at ih
        simp at ih
        rw [hins]
        simp [countL, ih]
        omega

end

mutual

theorem findN_matches : (inA : Bool) → (n : Node) → findN inA n = (matchesN inA n).head?
  | inA, .text s => by simp [findN, matchesN]
  | inA, .elem t a c => by
    rw [findN, matchesN]
    exact findL_matches (inA || t == "article") c

theorem findL_matches : (inA : Bool) → (l : List Node) → findL inA l = (matchesL inA l).head?
  | inA, [] => by simp [findL, matchesL]
  | inA, n :: r => by
    by_cases hm : isMatch inA n
    · simp [findL, matchesL, hm]
    · have ihn := findN_matches inA n
      have ihr := findL_matches inA r
      rw [findL, if_neg hm, matchesL, if_neg hm]
      cases hq2 : matchesN inA n with
      | nil =>
        rw [hq2] at ihn
        simp only [List.head?_nil] at ihn
        rw [ihn]
        simpa using ihr
      | cons m ms =>
        rw [hq2] at ihn
        simp only [List.head?_cons] at ihn
        rw [ihn]
        simp

end

theorem countQ_avatarDivRel (b : Bool) : countQN b avatarDivRel = 0 := by
  cases b <;> decide

theorem count_self_avatarDivRel : countN avatarDivRel avatarDivRel = 1 := by
  decide

theorem runRel_count (doc : Node) :
    countN avatarDivRel (runRel doc) =
      countN avatarDivRel doc + (if 0 < countQN false doc then 1 else 0) := by
  have h := insN_count avatarDivRel countQ_avatarDivRel count_self_avatarDivRel false doc
  have hf : (insN avatarDivRel false doc).2 = (querySelectorHeading doc).isSome :=
    insN_flag avatarDivRel false doc
  show countN avatarDivRel (insN avatarDivRel false doc).1 = _
  rw [h, hf]
  by_cases hp : 0 < countQN false doc
  · rw [if_pos ((querySelectorHeading_isSome doc).mpr hp), if_pos hp]
  · have hh : ¬ (querySelectorHeading doc).isSome = true :=
      fun hh => hp ((querySelectorHeading_isSome doc).mp hh)
    rw [if_neg hh, if_neg hp]

theorem runRel_countQ (doc : Node) : countQN false (runRel doc) = countQN false doc := by
  show countQN false (insN avatarDivRel false doc).1 = countQN false doc
  exact insN_countQ avatarDivRel countQ_avatarDivRel false false doc

theorem querySelectorHeading_none {doc : Node} (hz : countQN false doc = 0) :
    querySelectorHeading doc = none := by
  rcases hq2 : querySelectorHeading doc with _ | h
  · rfl
  · have := (querySelectorHeading_isSome doc).mp (by rw [hq2]; rfl)
    omega

/-- C1: on a document whose content root contains exactly one level-1 or
level-2 heading (and, encoding browser node identity structurally, no
pre-existing copy of the byline div), one run of the readiness handler
yields exactly one byline element, and that byline is the immediate next
sibling of the located heading. -/
theorem one_byline_after_unique_heading (doc : Node)
    (h1 : countQN false doc = 1) (h0 : countN avatarDivRel doc = 0) :
    countN avatarDivRel (runRel doc) = 1 ∧
      ∃ h, querySelectorHeading doc = some h ∧
        hasPairN h avatarDivRel (runRel doc) = true := by
  have hpos : 0 < countQN false doc := by omega
  rcases hq2 : querySelectorHeading doc with _ | h
  · have := (querySelectorHeading_isSome doc).mpr hpos
    rw [hq2] at this
    simp at this
  · constructor
    · rw [runRel_count doc, h0, if_pos hpos]
    · refine ⟨h, rfl, ?_⟩
      obtain ⟨l1, l2, hp, hav⟩ := insN_decomp false doc h hq2
      exact (hav avatarDivRel).2

/-- Witness for C1 at the scenario page of the spec. -/
theorem one_byline_after_unique_heading_witness :
    countN avatarDivRel (runRel scenarioDoc) = 1 ∧
      ∃ h, querySelectorHeading scenarioDoc = some h ∧
        hasPairN h avatarDivRel (runRel scenarioDoc) = true :=
  one_byline_after_unique_heading scenarioDoc (by decide) (by decide)

/-- C2 counterexample: on a page where an h2 precedes an h1 inside the
article, the selector matches both headings, yet querySelector returns the
h2, not the h1: the operation does not prefer level-1 headings. -/
theorem selector_prefers_document_order_cex :
    querySelectorHeading h2BeforeH1Doc = some (Node.elem "h2" [] [Node.text "Sub"]) ∧
      Node.elem "h1" [] [Node.text "Main"] ∈ matchesN false h2BeforeH1Doc ∧
      Node.elem "h2" [] [Node.text "Sub"] ≠ Node.elem "h1" [] [Node.text "Main"] :=
  ⟨by decide, by decide, by decide⟩

/-- C2 (amended): the heading-location operation returns the first selector
match of the document in document order, with no preference of level-1 over
level-2 headings. -/
theorem selector_first_in_document_order (doc : Node) :
    querySelectorHeading doc = (matchesN false doc).head? :=
  findN_matches false doc

/-- C3 counterexample: running the handler body twice on the scenario page
leaves two byline elements, not at most one. -/
theorem double_run_duplicates_cex :
    ¬ countN avatarDivRel (runRel (runRel scenarioDoc)) ≤ 1 := by
  decide

/-- C3 (amended): the handler has no already-inserted guard, so running the
readiness handling logic twice inserts two bylines whenever a qualifying
heading exists (and none otherwise); at most one byline per page load holds
only because the readiness event fires once per load. -/
theorem double_run_inserts_two (doc : Node) (h0 : countN avatarDivRel doc = 0) :
    countN avatarDivRel (runRel (runRel doc)) =
      if 0 < countQN false doc then 2 else 0 := by
  by_cases hp : 0 < countQN false doc
  · rw [if_pos hp]
    have h1 : countN avatarDivRel (runRel doc) = 1 := by
      rw [runRel_count doc, h0, if_pos hp]
    have hq1 : 0 < countQN false (runRel doc) := by
      rw [runRel_countQ]
      exact hp
    rw [runRel_count (runRel doc), h1, if_pos hq1]
  · rw [if_neg hp]
    have hz : countQN false doc = 0 := by omega
    have hrun : runRel doc = doc := run_eq_of_none avatarDivRel (querySelectorHeading_none hz)
    rw [hrun, hrun, h0]

/-- Witness for C3 (amended) at the scenario page. -/
theorem double_run_inserts_two_witness :
    countN avatarDivRel (runRel (runRel scenarioDoc)) =
      if 0 < countQN false scenarioDoc then 2 else 0 :=
  double_run_inserts_two scenarioDoc (by decide)

/-- C4 counterexample: the two variants do not construct identical label
text: the relative-mode span reads By labeeb while the origin-qualified span
reads By Labeeb, so the bylines differ beyond the image source path. -/
theorem variant_labels_differ_cex :
    firstSpanTextN avatarDivRel = some "By labeeb" ∧
      firstSpanTextN (avatarDivOrigin "https://labeebahmad201.github.io") = some "By Labeeb" ∧
      ("By labeeb" : String) ≠ "By Labeeb" :=
  ⟨by decide, by decide, by decide⟩

/-- C4 (amended): the two variants locate the same heading, insert at the
same position (witnessed by one preorder decomposition shared by both runs),
and build bylines of identical shape, differing only in the resolved image
source path and in the casing of the label text. -/
theorem variants_align_up_to_src_and_label (o : String) (doc : Node) :
    (insN (avatarDivOrigin o) false doc).2 = (insN avatarDivRel false doc).2 ∧
      avatarDivRel = mkAvatarDiv "images/labeeb.jpg" "By labeeb" ∧
      avatarDivOrigin o = mkAvatarDiv (image_url o) "By Labeeb" ∧
      (∀ h, querySelectorHeading doc = some h →
        ∃ l1 l2, pre1 doc = l1 ++ l2 ∧
          pre1 (runOrigin o doc) = l1 ++ pre1 (avatarDivOrigin o) ++ l2 ∧
          pre1 (runRel doc) = l1 ++ pre1 avatarDivRel ++ l2) ∧
      (querySelectorHeading doc = none → runOrigin o doc = doc ∧ runRel doc = doc) := by
  refine ⟨?_, rfl, rfl, ?_, ?_⟩
  · rw [insN_flag, insN_flag]
  · intro h hf
    obtain ⟨l1, l2, hp, hav⟩ := insN_decomp false doc h hf
    exact ⟨l1, l2, hp, (hav (avatarDivOrigin o)).1, (hav avatarDivRel).1⟩
  · intro hf
    exact ⟨run_eq_of_none _ hf, run_eq_of_none _ hf⟩

/-- Witness for C4 (amended) at the scenario page and the site origin. -/
theorem variants_align_up_to_src_and_label_witness :
    ∃ l1 l2, pre1 scenarioDoc = l1 ++ l2 ∧
      pre1 (runOrigin "https://labeebahmad201.github.io" scenarioDoc) =
        l1 ++ pre1 (avatarDivOrigin "https://labeebahmad201.github.io") ++ l2 ∧
      pre1 (runRel scenarioDoc) = l1 ++ pre1 avatarDivRel ++ l2 :=
  (variants_align_up_to_src_and_label "https://labeebahmad201.github.io"
    scenarioDoc).2.2.2.1 scenarioH1 (by decide)

/-- C5 counterexample: for the origin string https://example.org/ (which
ends in a slash) the resolved path carries a double slash at the junction of
origin and site base path, refuting the claim for every origin string. -/
theorem image_url_double_slash_cex :
    image_url "https://example.org/" =
      "https://example.org//backend-engineering-notes/images/labeeb.jpg" ∧
      oneSlashSeam "https://example.org/" siteBasePath = false :=
  ⟨by decide, by decide⟩

/-- C5 (amended): for every origin string that does not end in a slash (true
of every browser origin), the resolved image path is the concatenation of
the origin, the fixed site base path and the fixed image sub-path, with
exactly one slash at each junction. -/
theorem image_url_single_slash_junctions (o : String) (ho : endsSlash o = false) :
    image_url o = o ++ siteBasePath ++ imageSubPath ∧
      oneSlashSeam o siteBasePath = true ∧
      oneSlashSeam siteBasePath imageSubPath = true := by
  refine ⟨?_, ?_, by decide⟩
  · rw [image_url, String.append_assoc]
    congr 1
  · rw [oneSlashSeam, ho]
    simp only [Bool.false_and, Bool.not_false, Bool.true_and, Bool.false_or]
    decide

/-- Witness for C5 (amended) at the site origin. -/
theorem image_url_single_slash_junctions_witness :
    image_url "https://labeebahmad201.github.io" =
      "https://labeebahmad201.github.io" ++ siteBasePath ++ imageSubPath ∧
      oneSlashSeam "https://labeebahmad201.github.io" siteBasePath = true ∧
      oneSlashSeam siteBasePath imageSubPath = true :=
  image_url_single_slash_junctions "https://labeebahmad201.github.io" (by decide)

/-- C6: on a document with zero qualifying headings (and no pre-existing
copy of the byline div) the handler leaves the document unchanged, no byline
element exists afterwards, and no error arises: even over fallible DOM
operations the handler returns the document successfully, since the guarded
branch is never entered. -/
theorem no_heading_noop (doc : Node) (hz : countQN false doc = 0)
    (hb : countN avatarDivRel doc = 0) :
    runRel doc = doc ∧ countN avatarDivRel (runRel doc) = 0 ∧
      ∀ api : DomApi, handlerE api doc = Except.ok doc := by
  have hnone : querySelectorHeading doc = none := querySelectorHeading_none hz
  have hrun : runRel doc = doc := run_eq_of_none avatarDivRel hnone
  refine ⟨hrun, ?_, ?_⟩
  · rw [hrun]
    exact hb
  · intro api
    simp [handlerE, hnone]

/-- Witness for C6 at the no-heading scenario page of the spec. -/
theorem no_heading_noop_witness :
    runRel noHeadingDoc = noHeadingDoc ∧
      countN avatarDivRel (runRel noHeadingDoc) = 0 ∧
      ∀ api : DomApi, handlerE api noHeadingDoc = Except.ok noHeadingDoc :=
  no_heading_noop noHeadingDoc (by decide) (by decide)

/-- C7: the handler never removes or replaces a pre-existing node: the
preorder label sequence of the input document is a subsequence of that of
the output, and when a heading is located the output preorder is exactly
the input preorder with the byline preorder spliced in at one position,
with the byline sitting as the immediate next sibling of that heading. -/
theorem insertion_purely_additive (doc : Node) :
    List.Sublist (pre1 doc) (pre1 (runRel doc)) ∧
      ∀ h, querySelectorHeading doc = some h →
        (∃ l1 l2, pre1 doc = l1 ++ l2 ∧
          pre1 (runRel doc) = l1 ++ pre1 avatarDivRel ++ l2) ∧
        hasPairN h avatarDivRel (runRel doc) = true := by
  rcases hq2 : querySelectorHeading doc with _ | h
  · have hrun : runRel doc = doc := run_eq_of_none avatarDivRel hq2
    rw [hrun]
    refine ⟨List.Sublist.refl _, ?_⟩
    intro h hf
    exact Option.noConfusion hf
  · obtain ⟨l1, l2, hp, hav⟩ := insN_decomp false doc h hq2
    have h1 := (hav avatarDivRel).1
    have h2 := (hav avatarDivRel).2
    constructor
    · show List.Sublist (pre1 doc) (pre1 (insN avatarDivRel false doc).1)
      rw [hp, h1, List.append_assoc]
      exact List.Sublist.append_left (List.sublist_append_right _ _) l1
    · intro h3 hf
      injection hf with he
      subst he
      exact ⟨⟨l1, l2, hp, h1⟩, h2⟩

/-- Witness for C7 at the scenario page. -/
theorem insertion_purely_additive_witness :
    List.Sublist (pre1 scenarioDoc) (pre1 (runRel scenarioDoc)) ∧
      (∃ l1 l2, pre1 scenarioDoc = l1 ++ l2 ∧
        pre1 (runRel scenarioDoc) = l1 ++ pre1 avatarDivRel ++ l2) ∧
      hasPairN scenarioH1 avatarDivRel (runRel scenarioDoc) = true :=
  ⟨(insertion_purely_additive scenarioDoc).1,
   (insertion_purely_additive scenarioDoc).2 scenarioH1 (by decide)⟩

/-- C8: in relative mode the image source carried by the byline is exactly
the fixed relative path constant images/labeeb.jpg, and that byline is the
one the handler attaches after the located heading. -/
theorem relative_mode_fixed_path :
    firstImgSrcN avatarDivRel = some relImagePath ∧
      ∀ doc h, querySelectorHeading doc = some h →
        hasPairN h avatarDivRel (runRel doc) = true := by
  refine ⟨by decide, ?_⟩
  intro doc h hf
  obtain ⟨l1, l2, hp, hav⟩ := insN_decomp false doc h hf
  exact (hav avatarDivRel).2

/-- Witness for C8 at the scenario page. -/
theorem relative_mode_fixed_path_witness :
    firstImgSrcN avatarDivRel = some relImagePath ∧
      hasPairN scenarioH1 avatarDivRel (runRel scenarioDoc) = true :=
  ⟨relative_mode_fixed_path.1,
   relative_mode_fixed_path.2 scenarioDoc scenarioH1 (by decide)⟩

/-- C9 counterexample: in an environment whose element construction fails,
the handler run on the scenario page returns that error rather than a
successful document: the failure escapes the handler, which contains no
catch. -/
theorem construction_failure_escapes_cex :
    handlerE failingApi scenarioDoc = Except.error "createElement unavailable" ∧
      ∀ d, handlerE failingApi scenarioDoc ≠ Except.ok d := by
  refine ⟨rfl, ?_⟩
  intro d hd
  have h1 : handlerE failingApi scenarioDoc = Except.error "createElement unavailable" := rfl
  rw [h1] at hd
  exact Except.noConfusion hd

/-- C9 (amended): the handler contains no error handling: whenever a heading
is located, a failure of the construction step, or of the insertion step
after a successful construction, propagates out of the handler unchanged. -/
theorem construction_failure_propagates (api : DomApi) (doc h : Node) (e : String) :
    (querySelectorHeading doc = some h → api.createAvatar = Except.error e →
      handlerE api doc = Except.error e) ∧
      (∀ av, querySelectorHeading doc = some h → api.createAvatar = Except.ok av →
        api.insertAvatarAfter doc h av = Except.error e →
        handlerE api doc = Except.error e) := by
  constructor
  · intro hf hc
    simp [handlerE, hf, hc]
  · intro av hf hc hi
    simp [handlerE, hf, hc, hi]

/-- Witness for C9 (amended): both failure modes observed concretely. -/
theorem construction_failure_propagates_witness :
    handlerE failingApi scenarioDoc = Except.error "createElement unavailable" ∧
      handlerE failingInsertApi scenarioDoc =
        Except.error "insertAdjacentElement unavailable" :=
  ⟨(construction_failure_propagates failingApi scenarioDoc scenarioH1
      "createElement unavailable").1 (by decide) rfl,
   (construction_failure_propagates failingInsertApi scenarioDoc scenarioH1
      "insertAdjacentElement unavailable").2 avatarDivRel (by decide) rfl rfl⟩

/-- C10: on a document with two or more qualifying headings (and no
pre-existing copy of the byline div) a single run inserts exactly one
byline, attached after the heading querySelector returns, which is the first
selector match in document order; all later matches receive none, there
being only one byline in the result. -/
theorem first_heading_of_many_gets_byline (doc : Node)
    (hm : 2 ≤ countQN false doc) (h0 : countN avatarDivRel doc = 0) :
    countN avatarDivRel (runRel doc) = 1 ∧
      querySelectorHeading doc = (matchesN false doc).head? ∧
      ∃ h, querySelectorHeading doc = some h ∧
        hasPairN h avatarDivRel (runRel doc) = true := by
  have hpos : 0 < countQN false doc := by omega
  rcases hq2 : querySelectorHeading doc with _ | h
  · have := (querySelectorHeading_isSome doc).mpr hpos
    rw [hq2] at this
    simp at this
  · refine ⟨?_, ?_, h, rfl, ?_⟩
    · rw [runRel_count doc, h0, if_pos hpos]
    · rw [← hq2]
      exact findN_matches false doc
    · obtain ⟨l1, l2, hp, hav⟩ := insN_decomp false doc h hq2
      exact (hav avatarDivRel).2

/-- Witness for C10 at a page with two qualifying headings. -/
theorem first_heading_of_many_gets_byline_witness :
    countN avatarDivRel (runRel twoHeadingsDoc) = 1 ∧
      querySelectorHeading twoHeadingsDoc = (matchesN false twoHeadingsDoc).head? ∧
      ∃ h, querySelectorHeading twoHeadingsDoc = some h ∧
        hasPairN h avatarDivRel (runRel twoHeadingsDoc) = true :=
  first_heading_of_many_gets_byline twoHeadingsDoc (by decide) (by decide)
